import Mathlib

/-!
Verification of the httpc vim-style REPL core (`src/repl.rs`) against its
natural-language specification.

Conventions of the shallow embedding:

* Rust `usize` is modelled as `Nat`.  Where the source subtracts two `usize`
  values under an adjacent guard that rules out underflow, plain (truncating)
  `Nat` subtraction is used, which agrees with the Rust result there.  Where
  the source subtracts with no such guard (so the subtraction can underflow,
  which is a panic in a debug build and a wrap in a release build), the
  operation is modelled as `Option`-valued and the underflow returns `none`.
  `saturating_sub` is exactly `Nat` subtraction.
* Rust `String` is modelled as `List Char`; byte indices of the source are
  character indices here, which agrees with the source on single-byte
  characters.  `Vec<String>` becomes `List (List Char)`.
* Rust indexing `v[i]` and `Vec::remove`/`Vec::insert`/`String::split_off`
  panic out of bounds; operations whose index is not evidently in bounds are
  `Option`-valued, with `none` for the panic.
* `f64` values arising in the pane-split arithmetic are all non-negative
  dyadic rationals far from overflow and underflow; they are modelled exactly
  as a natural mantissa over a power-of-two denominator, with IEEE-754
  round-to-nearest, ties-to-even applied by `flDiv` after each division and
  multiplication, mirroring the double-precision result bit for bit in the
  range the program uses.
-/

namespace Httpc

/-- Model of the `Buffer` struct of `repl.rs` (the editable request buffer):
text lines, cursor position and vertical scroll offset. -/
structure Buffer where
  lines : List (List Char)
  cursorLine : Nat
  cursorCol : Nat
  scrollOffset : Nat
  deriving Repr, DecidableEq

/-- `Buffer::new`: one empty line, everything at zero. -/
def Buffer.new : Buffer := ⟨[[]], 0, 0, 0⟩

/-- `Buffer::insert_char`.  If `cursor_line` is past the end one empty line is
pushed; the following index of `lines[cursor_line]` panics (`none`) when the
cursor line is still out of bounds.  The character is inserted only when
`cursor_col <= line.len()`. -/
def Buffer.insertChar (b : Buffer) (ch : Char) : Option Buffer :=
  let lines := if b.cursorLine ≥ b.lines.length then b.lines ++ [[]] else b.lines
  if b.cursorLine < lines.length then
    let line := lines.getD b.cursorLine []
    if b.cursorCol ≤ line.length then
      some { b with
        lines := lines.set b.cursorLine
          (line.take b.cursorCol ++ ch :: line.drop b.cursorCol),
        cursorCol := b.cursorCol + 1 }
    else
      some { b with lines := lines }
  else
    none

/-- `Buffer::delete_char` (backspace).  Early return when the cursor line is
out of bounds; removes the character before the cursor, or joins with the
previous line when at column 0. -/
def Buffer.deleteChar (b : Buffer) : Option Buffer :=
  if b.cursorLine < b.lines.length then
    let line := b.lines.getD b.cursorLine []
    if 0 < b.cursorCol ∧ b.cursorCol ≤ line.length then
      some { b with
        lines := b.lines.set b.cursorLine
          (line.take (b.cursorCol - 1) ++ line.drop b.cursorCol),
        cursorCol := b.cursorCol - 1 }
    else if b.cursorCol = 0 ∧ 0 < b.cursorLine then
      -- at beginning of line, join with previous line
      let lines := b.lines.eraseIdx b.cursorLine
      let cl := b.cursorLine - 1
      let prev := lines.getD cl []
      some { b with
        lines := lines.set cl (prev ++ line),
        cursorLine := cl,
        cursorCol := prev.length }
    else
      some b
  else
    some b

/-- `Buffer::delete_char_at_cursor` (`x` / Delete): removes the character under
the cursor, or joins with the next line when at end of line. -/
def Buffer.deleteCharAtCursor (b : Buffer) : Option Buffer :=
  if b.cursorLine < b.lines.length then
    let line := b.lines.getD b.cursorLine []
    if b.cursorCol < line.length then
      some { b with
        lines := b.lines.set b.cursorLine
          (line.take b.cursorCol ++ line.drop (b.cursorCol + 1)) }
    else if b.cursorLine + 1 < b.lines.length then
      let next := b.lines.getD (b.cursorLine + 1) []
      some { b with
        lines := (b.lines.eraseIdx (b.cursorLine + 1)).set b.cursorLine
          (line ++ next) }
    else
      some b
  else
    some b

/-- `Buffer::new_line` (Enter): split the current line at the cursor.  The
source's `split_off(cursor_col)` panics when the column is past the end. -/
def Buffer.newLine (b : Buffer) : Option Buffer :=
  let lines := if b.cursorLine ≥ b.lines.length then b.lines ++ [[]] else b.lines
  if b.cursorLine < lines.length then
    let line := lines.getD b.cursorLine []
    if b.cursorCol ≤ line.length then
      let kept := line.take b.cursorCol
      let remainder := line.drop b.cursorCol
      let lines₂ := lines.set b.cursorLine kept
      some { b with
        lines := lines₂.take (b.cursorLine + 1) ++ remainder ::
          lines₂.drop (b.cursorLine + 1),
        cursorLine := b.cursorLine + 1,
        cursorCol := 0 }
    else
      none
  else
    none

/-- `Buffer::new_line_with_scroll`: `new_line`, then advance the scroll if the
cursor left the visible window. -/
def Buffer.newLineWithScroll (b : Buffer) (visibleHeight : Nat) : Option Buffer :=
  (b.newLine).map fun b₂ =>
    if b₂.cursorLine ≥ b₂.scrollOffset + visibleHeight then
      { b₂ with scrollOffset := b₂.cursorLine - visibleHeight + 1 }
    else b₂

/-- `Buffer::move_cursor_up`. -/
def Buffer.moveCursorUp (b : Buffer) : Buffer :=
  if 0 < b.cursorLine then
    let cl := b.cursorLine - 1
    { b with cursorLine := cl,
             cursorCol := b.cursorCol.min (b.lines.getD cl []).length }
  else b

/-- `Buffer::move_cursor_up_with_scroll`. -/
def Buffer.moveCursorUpWithScroll (b : Buffer) : Buffer :=
  if 0 < b.cursorLine then
    let cl := b.cursorLine - 1
    let b₂ := { b with cursorLine := cl,
                       cursorCol := b.cursorCol.min (b.lines.getD cl []).length }
    if cl < b₂.scrollOffset then { b₂ with scrollOffset := cl } else b₂
  else b

/-- `Buffer::move_cursor_down`. -/
def Buffer.moveCursorDown (b : Buffer) : Buffer :=
  if b.cursorLine < b.lines.length - 1 then
    let cl := b.cursorLine + 1
    { b with cursorLine := cl,
             cursorCol := b.cursorCol.min (b.lines.getD cl []).length }
  else b

/-- `Buffer::move_cursor_down_with_scroll`. -/
def Buffer.moveCursorDownWithScroll (b : Buffer) (visibleHeight : Nat) : Buffer :=
  if b.cursorLine < b.lines.length - 1 then
    let cl := b.cursorLine + 1
    let b₂ := { b with cursorLine := cl,
                       cursorCol := b.cursorCol.min (b.lines.getD cl []).length }
    if cl ≥ b₂.scrollOffset + visibleHeight then
      { b₂ with scrollOffset := cl - visibleHeight + 1 }
    else b₂
  else b

/-- `Buffer::move_cursor_left`. -/
def Buffer.moveCursorLeft (b : Buffer) : Buffer :=
  if 0 < b.cursorCol then { b with cursorCol := b.cursorCol - 1 } else b

/-- `Buffer::move_cursor_right`. -/
def Buffer.moveCursorRight (b : Buffer) : Buffer :=
  match b.lines.get? b.cursorLine with
  | some line => if b.cursorCol < line.length then
      { b with cursorCol := b.cursorCol + 1 } else b
  | none => b

/-- `Buffer::join_with_next_line` (`J`): append the next line, inserting a
single space unless either side already has one at the boundary. -/
def Buffer.joinWithNextLine (b : Buffer) : Buffer :=
  if b.cursorLine + 1 < b.lines.length then
    let next := b.lines.getD (b.cursorLine + 1) []
    let lines := b.lines.eraseIdx (b.cursorLine + 1)
    let cur := lines.getD b.cursorLine []
    let cur₂ :=
      if cur ≠ [] ∧ cur.getLast? ≠ some ' ' ∧ next ≠ [] ∧ next.head? ≠ some ' '
      then cur ++ [' '] else cur
    { b with lines := lines.set b.cursorLine (cur₂ ++ next) }
  else b

/-- `Buffer::move_cursor_to_line_start` (`0`). -/
def Buffer.moveCursorToLineStart (b : Buffer) : Buffer :=
  { b with cursorCol := 0 }

/-- `Buffer::move_cursor_to_line_end` (`$`). -/
def Buffer.moveCursorToLineEnd (b : Buffer) : Buffer :=
  match b.lines.get? b.cursorLine with
  | some line => { b with cursorCol := line.length }
  | none => b

/-- `Buffer::move_cursor_to_start` (`gg`). -/
def Buffer.moveCursorToStart (b : Buffer) : Buffer :=
  { b with cursorLine := 0, cursorCol := 0, scrollOffset := 0 }

/-- `Buffer::move_cursor_to_end` (`G` in visual mode). -/
def Buffer.moveCursorToEnd (b : Buffer) : Buffer :=
  if b.lines ≠ [] then
    { b with cursorLine := b.lines.length - 1,
             cursorCol := (b.lines.getD (b.lines.length - 1) []).length }
  else b

/-- `Buffer::move_cursor_to_end_with_scroll` (`G`). -/
def Buffer.moveCursorToEndWithScroll (b : Buffer) (visibleHeight : Nat) : Buffer :=
  if b.lines ≠ [] then
    { b with cursorLine := b.lines.length - 1,
             cursorCol := (b.lines.getD (b.lines.length - 1) []).length,
             scrollOffset := if b.lines.length > visibleHeight then
               b.lines.length - visibleHeight else 0 }
  else b

/-- `Buffer::scroll_up`. -/
def Buffer.scrollUp (b : Buffer) : Buffer :=
  if 0 < b.scrollOffset then { b with scrollOffset := b.scrollOffset - 1 } else b

/-- `Buffer::scroll_down`. -/
def Buffer.scrollDown (b : Buffer) (maxLines : Nat) : Buffer :=
  if b.scrollOffset + maxLines < b.lines.length then
    { b with scrollOffset := b.scrollOffset + 1 }
  else b

/-- `Buffer::scroll_half_page_up`. -/
def Buffer.scrollHalfPageUp (b : Buffer) (halfPageSize : Nat) : Buffer :=
  { b with scrollOffset := b.scrollOffset - halfPageSize.min b.scrollOffset }

/-- `Buffer::scroll_half_page_down`.  The source computes
`max_scroll - self.scroll_offset` with an unchecked `usize` subtraction; when
`scroll_offset > max_scroll` this underflows (panic in debug, wrap in
release), modelled as `none`. -/
def Buffer.scrollHalfPageDown (b : Buffer) (halfPageSize maxLines : Nat) :
    Option Buffer :=
  let maxScroll := if b.lines.length > maxLines then b.lines.length - maxLines else 0
  if b.scrollOffset ≤ maxScroll then
    some { b with scrollOffset :=
      b.scrollOffset + halfPageSize.min (maxScroll - b.scrollOffset) }
  else
    none

/-- `Buffer::scroll_half_page_up_with_cursor` (`Ctrl+U` / `Ctrl+B`). -/
def Buffer.scrollHalfPageUpWithCursor (b : Buffer) (halfPageSize : Nat) : Buffer :=
  let scrollAmount := halfPageSize.min b.scrollOffset
  let so := b.scrollOffset - scrollAmount
  let cl := if b.cursorLine ≥ scrollAmount then b.cursorLine - scrollAmount else so
  { b with scrollOffset := so,
           cursorLine := cl,
           cursorCol := b.cursorCol.min (b.lines.getD cl []).length }

/-- `Buffer::scroll_half_page_down_with_cursor` (`Ctrl+D` / `Ctrl+F`).  Same
unchecked `max_scroll - scroll_offset` subtraction as `scroll_half_page_down`,
modelled as `none` on underflow. -/
def Buffer.scrollHalfPageDownWithCursor (b : Buffer)
    (halfPageSize visibleHeight : Nat) : Option Buffer :=
  let maxScroll := if b.lines.length > visibleHeight then
    b.lines.length - visibleHeight else 0
  if b.scrollOffset ≤ maxScroll then
    let scrollAmount := halfPageSize.min (maxScroll - b.scrollOffset)
    let so := b.scrollOffset + scrollAmount
    let cl := if b.cursorLine + scrollAmount < b.lines.length then
      b.cursorLine + scrollAmount else b.lines.length - 1
    some { b with scrollOffset := so,
                  cursorLine := cl,
                  cursorCol := b.cursorCol.min (b.lines.getD cl []).length }
  else
    none

/-- `Buffer::delete_to_line_end` (`D`): returns the new buffer and the deleted
text. -/
def Buffer.deleteToLineEnd (b : Buffer) : Buffer × List Char :=
  if b.cursorLine < b.lines.length then
    let line := b.lines.getD b.cursorLine []
    if b.cursorCol < line.length then
      ({ b with lines := b.lines.set b.cursorLine (line.take b.cursorCol) },
       line.drop b.cursorCol)
    else (b, [])
  else (b, [])

/-- `Buffer::get_text`: lines joined with a newline. -/
def Buffer.getText (b : Buffer) : List Char :=
  (b.lines.intersperse ['\n']).flatten

/-- `Buffer::yank_line` (`y` in the request pane). -/
def Buffer.yankLine (b : Buffer) : List Char :=
  b.lines.getD b.cursorLine []

/-- `Buffer::yank_to_line_end` (`Y`). -/
def Buffer.yankToLineEnd (b : Buffer) : List Char :=
  match b.lines.get? b.cursorLine with
  | some line => if b.cursorCol < line.length then line.drop b.cursorCol else []
  | none => []

/-- `Buffer::delete_line` (`dd`): removes the cursor line (clearing it instead
when it is the only line) and returns the deleted text.  The source's
`lines.remove(cursor_line)` and `lines[0]` panic out of bounds (`none`). -/
def Buffer.deleteLine (b : Buffer) : Option (Buffer × List Char) :=
  if 1 < b.lines.length then
    if b.cursorLine < b.lines.length then
      let deleted := b.lines.getD b.cursorLine []
      let lines := b.lines.eraseIdx b.cursorLine
      let cl := if b.cursorLine ≥ lines.length then lines.length - 1 else b.cursorLine
      some ({ b with lines := lines, cursorLine := cl, cursorCol := 0 }, deleted)
    else
      none
  else
    match b.lines.head? with
    | some first =>
        some ({ b with lines := b.lines.set 0 [], cursorCol := 0 }, first)
    | none => none

/-- `Buffer::paste_line` (`p`): insert below the cursor line.  `Vec::insert`
at `cursor_line + 1` panics when that index is past the end. -/
def Buffer.pasteLine (b : Buffer) (text : List Char) : Option Buffer :=
  if b.cursorLine + 1 ≤ b.lines.length then
    some { b with
      lines := b.lines.take (b.cursorLine + 1) ++ text ::
        b.lines.drop (b.cursorLine + 1),
      cursorLine := b.cursorLine + 1,
      cursorCol := 0 }
  else
    none

/-- `Buffer::paste_line_above` (`P`). -/
def Buffer.pasteLineAbove (b : Buffer) (text : List Char) : Option Buffer :=
  if b.cursorLine ≤ b.lines.length then
    some { b with
      lines := b.lines.take b.cursorLine ++ text :: b.lines.drop b.cursorLine,
      cursorCol := 0 }
  else
    none

/-- One editing operation on the request buffer, with the parameters
(`visible_height`, `half_page_size`, `max_lines`) that the key handlers pass
from the current pane geometry.  Word motions and the visual-selection delete
are modelled separately and are not needed below. -/
inductive EditOp where
  | insertCh (c : Char)
  | deleteCh
  | deleteAtCursor
  | newLn
  | newLnScroll (visibleHeight : Nat)
  | moveUp
  | moveUpScroll
  | moveDown
  | moveDownScroll (visibleHeight : Nat)
  | moveLeft
  | moveRight
  | lineStart
  | lineEnd
  | bufStart
  | bufEnd
  | bufEndScroll (visibleHeight : Nat)
  | scrollUpOne
  | scrollDownOne (maxLines : Nat)
  | halfPageUp (halfPageSize : Nat)
  | halfPageDown (halfPageSize maxLines : Nat)
  | halfPageUpCursor (halfPageSize : Nat)
  | halfPageDownCursor (halfPageSize visibleHeight : Nat)
  | joinNext
  | deleteToEnd
  | deleteLn
  | pasteBelow (text : List Char)
  | pasteAbove (text : List Char)
  deriving Repr, DecidableEq

/-- Apply one editing operation; `none` is a panic of the source. -/
def applyEdit (op : EditOp) (b : Buffer) : Option Buffer :=
  match op with
  | .insertCh c => b.insertChar c
  | .deleteCh => b.deleteChar
  | .deleteAtCursor => b.deleteCharAtCursor
  | .newLn => b.newLine
  | .newLnScroll vh => b.newLineWithScroll vh
  | .moveUp => some b.moveCursorUp
  | .moveUpScroll => some b.moveCursorUpWithScroll
  | .moveDown => some b.moveCursorDown
  | .moveDownScroll vh => some (b.moveCursorDownWithScroll vh)
  | .moveLeft => some b.moveCursorLeft
  | .moveRight => some b.moveCursorRight
  | .lineStart => some b.moveCursorToLineStart
  | .lineEnd => some b.moveCursorToLineEnd
  | .bufStart => some b.moveCursorToStart
  | .bufEnd => some b.moveCursorToEnd
  | .bufEndScroll vh => some (b.moveCursorToEndWithScroll vh)
  | .scrollUpOne => some b.scrollUp
  | .scrollDownOne ml => some (b.scrollDown ml)
  | .halfPageUp n => some (b.scrollHalfPageUp n)
  | .halfPageDown n ml => b.scrollHalfPageDown n ml
  | .halfPageUpCursor n => some (b.scrollHalfPageUpWithCursor n)
  | .halfPageDownCursor n vh => b.scrollHalfPageDownWithCursor n vh
  | .joinNext => some b.joinWithNextLine
  | .deleteToEnd => some (b.deleteToLineEnd).1
  | .deleteLn => (b.deleteLine).map Prod.fst
  | .pasteBelow t => b.pasteLine t
  | .pasteAbove t => b.pasteLineAbove t

/-- Apply a sequence of editing operations left to right; `none` as soon as
one of them panics. -/
def applyEdits (ops : List EditOp) (b : Buffer) : Option Buffer :=
  ops.foldl (fun ob op => ob.bind (applyEdit op)) (some b)

/-- The cursor part of the buffer invariant claimed by the specification:
`cursor_line` indexes an existing line and `cursor_col` is at most that
line's length. -/
def CursorInv (b : Buffer) : Prop :=
  b.cursorLine < b.lines.length ∧
  b.cursorCol ≤ (b.lines.getD b.cursorLine []).length

instance (b : Buffer) : Decidable (CursorInv b) := by
  unfold CursorInv; infer_instance

/-- An editing sequence, from the initial one-empty-line buffer, that drives
the cursor and the scroll offset out of bounds: grow to five lines, scroll
down three times, delete four lines (the scroll offset is never re-clamped),
then `Ctrl+U`, which plants the cursor at the stale scroll offset. -/
def c1FailingOps : List EditOp :=
  [.newLn, .newLn, .newLn, .newLn,
   .scrollDownOne 1, .scrollDownOne 1, .scrollDownOne 1,
   .deleteLn, .deleteLn, .deleteLn, .deleteLn,
   .halfPageUpCursor 1]

/-- The buffer state the failing sequence ends in: one empty line but
`cursor_line = 2` and `scroll_offset = 2`. -/
def c1BrokenState : Buffer := ⟨[[]], 2, 0, 2⟩

/-- `insert_all`: insert the characters one by one at the cursor
(`Buffer::insert_char` repeatedly). -/
def insertAll (b : Buffer) : List Char → Option Buffer
  | [] => some b
  | c :: cs => (b.insertChar c).bind (insertAll · cs)

/-- `delete_n`: apply `Buffer::delete_char` (backspace) `n` times. -/
def deleteN : Nat → Buffer → Option Buffer
  | 0, b => some b
  | n + 1, b => (deleteN n b).bind Buffer.deleteChar

/-- Which pane is active (`Pane` in `repl.rs`). -/
inductive Pane where
  | request
  | response
  deriving Repr, DecidableEq

/-- Model of the `ResponseBuffer` struct (read-only response view). -/
structure ResponseBuffer where
  content : List Char
  lines : List (List Char)
  scrollOffset : Nat
  cursorLine : Nat
  cursorCol : Nat
  deriving Repr, DecidableEq

/-- Model of the `VisualSelection` struct: endpoints as captured, unordered. -/
structure VisualSelection where
  startLine : Nat
  startCol : Nat
  endLine : Nat
  endCol : Nat
  deriving Repr, DecidableEq

/-- The selection with its two endpoints exchanged (capturing B→A instead of
A→B). -/
def VisualSelection.swap (s : VisualSelection) : VisualSelection :=
  ⟨s.endLine, s.endCol, s.startLine, s.startCol⟩

/-- The normalization prologue shared by `get_selected_text`,
`delete_selected_text` and `is_position_selected`: ordered line range and the
columns attached to the ordered ends. -/
def normSel (s : VisualSelection) : Nat × Nat × Nat × Nat :=
  let startLine := min s.startLine s.endLine
  let endLine := max s.startLine s.endLine
  let startCol := if s.startLine = startLine then s.startCol else s.endCol
  let endCol := if s.endLine = endLine then s.endCol else s.startCol
  (startLine, endLine, startCol, endCol)

/-- Rust slice `&line[a..b]`: panics (`none`) when `a > b` or `b > len`. -/
def rustSlice (l : List Char) (a b : Nat) : Option (List Char) :=
  if a ≤ b ∧ b ≤ l.length then some ((l.drop a).take (b - a)) else none

/-- Rust slice `&line[a..]`: panics (`none`) when `a > len`. -/
def rustSliceFrom (l : List Char) (a : Nat) : Option (List Char) :=
  if a ≤ l.length then some (l.drop a) else none

/-- The multi-line loop body of `get_selected_text`: walk the enumerated
window of lines, slicing the first line from `start_col`, the last line up to
`end_col` (clamped), interior lines whole, with `'\n'` after every line but
the last. -/
def collectSel (startLine endLine startCol endCol : Nat) :
    List (Nat × List Char) → Option (List Char)
  | [] => some []
  | (i, line) :: rest =>
    let part? : Option (List Char) :=
      if i = startLine then rustSliceFrom line startCol
      else if i = endLine then some (line.take (min endCol line.length))
      else some line
    match part? with
    | none => none
    | some part =>
      let part₂ := if i < endLine then part ++ ['\n'] else part
      (collectSel startLine endLine startCol endCol rest).map (part₂ ++ ·)

/-- `VimRepl::get_selected_text`: the yanked text of a visual selection, from
the active pane's lines.  `none` models the source panicking on an
out-of-range slice. -/
def getSelectedText (pane : Pane) (bufLines : List (List Char))
    (respBuf : Option ResponseBuffer) (sel : VisualSelection) :
    Option (List Char) :=
  let n := normSel sel
  let startLine := n.1
  let endLine := n.2.1
  let startCol := n.2.2.1
  let endCol := n.2.2.2
  let lines? : Option (List (List Char)) :=
    match pane, respBuf with
    | .request, _ => some bufLines
    | .response, some r => some r.lines
    | .response, none => none
  match lines? with
  | none => some []
  | some lines =>
    if startLine = endLine then
      match lines.get? startLine with
      | some line =>
          rustSlice line (min startCol endCol) (min (max startCol endCol) line.length)
      | none => some []
    else
      collectSel startLine endLine startCol endCol
        ((lines.enum.drop startLine).take (endLine - startLine + 1))

/-- Shorthand: the character list of a string literal. -/
def strL (s : String) : List Char := s.toList

/-- Model of `HashMap<String, String>` as an association list with at most
one entry per (case-sensitive) key: `insert` overwrites the entry with the
identical key or appends, `remove` deletes it, `lookup` finds it. -/
def mapLookup (k : List Char) (m : List (List Char × List Char)) :
    Option (List Char) :=
  (m.find? (fun p => p.1 = k)).map (·.2)

/-- `HashMap::insert`. -/
def mapInsert (k v : List Char) (m : List (List Char × List Char)) :
    List (List Char × List Char) :=
  if (m.find? (fun p => p.1 = k)).isSome then
    m.map (fun p => if p.1 = k then (k, v) else p)
  else
    m ++ [(k, v)]

/-- `HashMap::remove`. -/
def mapRemove (k : List Char) (m : List (List Char × List Char)) :
    List (List Char × List Char) :=
  m.filter (fun p => ¬ p.1 = k)

/-- Split at the first occurrence of `sep`, or `none` if absent. -/
def breakOn (sep : Char) : List Char → Option (List Char × List Char)
  | [] => none
  | c :: cs =>
    if c = sep then some ([], cs)
    else (breakOn sep cs).map (fun p => (c :: p.1, p.2))

/-- Rust `str::splitn(n, sep)`: at most `n` pieces, the last piece keeps the
remaining separators. -/
def splitn (sep : Char) : Nat → List Char → List (List Char)
  | 0, _ => []
  | 1, l => [l]
  | n + 2, l =>
    match breakOn sep l with
    | none => [l]
    | some (pre, post) => pre :: splitn sep (n + 1) post

/-- The REPL state that `execute_command` reads and writes (a projection of
`VimRepl`); the command buffer is passed explicitly.  `paneSplit` is the
`pane_split_ratio` f64, as an exact rational. -/
structure Session where
  currentPane : Pane
  responseBuffer : Option ResponseBuffer
  paneSplit : ℚ
  sessionHeaders : List (List Char × List Char)
  verbose : Bool
  statusMessage : List Char
  deriving Repr, DecidableEq

/-- What `execute_command` asks the event loop to do next: keep going, quit
(`Ok(true)`), or — for `x`/`execute` — hand the buffer to
`execute_request`. -/
inductive CmdOutcome where
  | keepGoing
  | quit
  | executeReq
  deriving Repr, DecidableEq

/-- `VimRepl::execute_command`, up to the external request dispatch: the
`x`/`execute` arm clears the response pane and reports `executeReq`. -/
def executeCommand (st : Session) (cmdBuf : List Char) : Session × CmdOutcome :=
  if cmdBuf = strL "q" ∨ cmdBuf = strL "quit" then
    if st.currentPane = .response then
      ({ st with responseBuffer := none, currentPane := .request,
                 paneSplit := 1 }, .keepGoing)
    else
      (st, .quit)
  else if cmdBuf = strL "q!" ∨ cmdBuf = strL "quit!" then
    (st, .quit)
  else if cmdBuf = strL "x" ∨ cmdBuf = strL "execute" then
    let st₂ := { st with responseBuffer := none }
    if st₂.currentPane = .request ∨ st₂.responseBuffer = none then
      (st₂, .executeReq)
    else
      (st₂, .keepGoing)
  else if cmdBuf = strL "clear" then
    ({ st with responseBuffer := none, statusMessage := strL "Response cleared" },
     .keepGoing)
  else if cmdBuf = strL "verbose" then
    ({ st with verbose := ¬ st.verbose }, .keepGoing)
  else if cmdBuf.take 5 = strL "head " then  -- starts_with("head ")
    let parts := splitn ' ' 3 cmdBuf
    if 3 ≤ parts.length then
      let key := parts.getD 1 []
      let value := parts.getD 2 []
      ({ st with sessionHeaders := mapInsert key value st.sessionHeaders,
                 statusMessage := strL "Header set: " ++ key ++ strL " = " ++ value },
       .keepGoing)
    else
      (st, .keepGoing)
  else if cmdBuf.take 7 = strL "unhead " then  -- starts_with("unhead ")
    let parts := splitn ' ' 2 cmdBuf
    if 2 ≤ parts.length then
      let key := parts.getD 1 []
      if (mapLookup key st.sessionHeaders).isSome then
        ({ st with sessionHeaders := mapRemove key st.sessionHeaders,
                   statusMessage := strL "Header removed: " ++ key }, .keepGoing)
      else
        ({ st with statusMessage := strL "Header not found: " ++ key }, .keepGoing)
    else
      (st, .keepGoing)
  else
    ({ st with statusMessage := strL "Unknown command: " ++ cmdBuf }, .keepGoing)

/-- The `y` key in Normal mode with the Response pane active
(`handle_normal_mode`, `KeyCode::Char('y')`): the clipboard receives the line
at index `scroll_offset`; out of range, the clipboard is left unchanged. -/
def yankResponseLine (resp : ResponseBuffer) (clipboard : List Char) : List Char :=
  match resp.lines.get? resp.scrollOffset with
  | some line => line
  | none => clipboard

/-- A fresh session state (request pane, no response, no headers). -/
def c9Start : Session := ⟨.request, none, 0, [], false, []⟩

/-- A session with a response pane open but the Request pane active. -/
def c2State : Session := ⟨.request, some ⟨[], [], 0, 0, 0⟩, 0, [], false, []⟩

/-- A response buffer with two identical lines, scrolled to the top, cursor
on the second line. -/
def c10Resp : ResponseBuffer := ⟨[], [['a'], ['a']], 0, 1, 0⟩

/-- A response buffer with two distinct lines, for the C10 witness. -/
def c10RespW : ResponseBuffer := ⟨[], [['a'], ['b']], 0, 1, 0⟩

/-- Rust `char::is_whitespace`: the Unicode `White_Space` property. -/
def rustIsWhitespace (c : Char) : Bool :=
  c = ' ' ∨ c = '\t' ∨ c = '\n' ∨ c = '\x0B' ∨ c = '\x0C' ∨ c = '\r' ∨
  c = '\u0085' ∨ c = '\u00A0' ∨ c = '\u1680' ∨
  ('\u2000' ≤ c ∧ c ≤ '\u200A') ∨
  c = '\u2028' ∨ c = '\u2029' ∨ c = '\u202F' ∨ c = '\u205F' ∨ c = '\u3000'

/-- Worker for `split_whitespace`: `cur` holds the current token reversed. -/
def splitWhitespaceAux : List Char → List Char → List (List Char)
  | [], cur => if cur = [] then [] else [cur.reverse]
  | c :: cs, cur =>
    if rustIsWhitespace c then
      if cur = [] then splitWhitespaceAux cs []
      else cur.reverse :: splitWhitespaceAux cs []
    else splitWhitespaceAux cs (c :: cur)

/-- Rust `str::split_whitespace`: maximal runs of non-whitespace characters. -/
def splitWhitespace (l : List Char) : List (List Char) :=
  splitWhitespaceAux l []

/-- Rust `str::trim`: strip leading and trailing whitespace. -/
def trimList (l : List Char) : List Char :=
  ((l.dropWhile rustIsWhitespace).reverse.dropWhile rustIsWhitespace).reverse

/-- Split at every occurrence of `sep` (keeping empty pieces). -/
def splitAllOn (sep : Char) : List Char → List (List Char)
  | [] => [[]]
  | c :: cs =>
    let r := splitAllOn sep cs
    if c = sep then [] :: r
    else
      match r with
      | [] => [[c]]
      | x :: xs => (c :: x) :: xs

/-- Strip one trailing carriage return, as Rust `str::lines` does per line. -/
def stripCR (l : List Char) : List Char :=
  if l.getLast? = some '\r' then l.dropLast else l

/-- Rust `str::lines`: split on `'\n'`, drop a final empty piece (trailing
newline), strip one `'\r'` from the end of each line. -/
def rustLinesOf (l : List Char) : List (List Char) :=
  let parts := splitAllOn '\n' l
  let parts₂ := if parts.getLast? = some [] then parts.dropLast else parts
  parts₂.map stripCR

/-- `join("\n")`. -/
def joinNL (ls : List (List Char)) : List Char :=
  (ls.intersperse ['\n']).flatten

/-- The decision `execute_request` reaches before anything external happens:
no request (empty first line), malformed (fewer than two tokens), or dispatch
with method, URL string and optional body. -/
inductive RequestParse where
  | noRequest
  | invalidFormat
  | dispatch (method urlStr : List Char) (body : Option (List Char))
  deriving Repr, DecidableEq

/-- The parsing phase of `VimRepl::execute_request` (everything before the
`client.request` call), applied to the request buffer's lines: re-split
`get_text()` (Rust `str::lines`), require a non-blank first line and at least
two whitespace-separated tokens, uppercase the method, skip one blank line
after the first, and join the remaining lines as the body.  `Char.toUpper`
stands in for Rust's Unicode uppercasing (they agree on ASCII). -/
def executeRequestParse (bufLines : List (List Char)) : RequestParse :=
  if rustLinesOf (joinNL bufLines) = [] ∨
      trimList ((rustLinesOf (joinNL bufLines)).headD []) = [] then
    .noRequest
  else if (splitWhitespace ((rustLinesOf (joinNL bufLines)).headD [])).length < 2 then
    .invalidFormat
  else
    .dispatch
      (((splitWhitespace ((rustLinesOf (joinNL bufLines)).headD [])).headD []).map
        Char.toUpper)
      ((splitWhitespace ((rustLinesOf (joinNL bufLines)).headD [])).getD 1 [])
      (if 1 < (rustLinesOf (joinNL bufLines)).length ∧
          trimList ((rustLinesOf (joinNL bufLines)).getD 1 []) = [] then
        if 2 < (rustLinesOf (joinNL bufLines)).length then
          some (joinNL ((rustLinesOf (joinNL bufLines)).drop 2))
        else none
      else
        if 1 < (rustLinesOf (joinNL bufLines)).length then
          some (joinNL ((rustLinesOf (joinNL bufLines)).drop 1))
        else none)

/-- The request-parse decision as the amended claim words it (clearly-named
comparison definition, for the refinement theorem): a request is dispatched
iff the first line carries AT LEAST two whitespace-separated tokens (tokens
beyond the second are ignored); the method is the uppercased first token, the
URL the second; if the line immediately after the first is blank it is
skipped, and the remaining lines joined with a newline form the body, absent
when there are none; with fewer than two tokens a status message is set and
nothing is dispatched. -/
def requestParseSpec (bufLines : List (List Char)) : RequestParse :=
  if 2 ≤ (splitWhitespace ((rustLinesOf (joinNL bufLines)).headD [])).length then
    .dispatch
      (((splitWhitespace ((rustLinesOf (joinNL bufLines)).headD [])).headD []).map
        Char.toUpper)
      ((splitWhitespace ((rustLinesOf (joinNL bufLines)).headD [])).getD 1 [])
      (if 1 < (rustLinesOf (joinNL bufLines)).length ∧
          trimList ((rustLinesOf (joinNL bufLines)).getD 1 []) = [] then
        if (rustLinesOf (joinNL bufLines)).drop 2 = [] then none
        else some (joinNL ((rustLinesOf (joinNL bufLines)).drop 2))
      else
        if (rustLinesOf (joinNL bufLines)).drop 1 = [] then none
        else some (joinNL ((rustLinesOf (joinNL bufLines)).drop 1)))
  else if rustLinesOf (joinNL bufLines) = [] ∨
      trimList ((rustLinesOf (joinNL bufLines)).headD []) = [] then
    .noRequest
  else .invalidFormat

/-- The `EditorMode` enum of `repl.rs`. -/
inductive EditorMode where
  | normal
  | insert
  | command
  | visual
  | visualLine
  deriving Repr, DecidableEq

/-- The key codes the render decision inspects; every other crossterm
`KeyCode` behaves like `other` there. -/
inductive KeyCode where
  | charKey (c : Char)
  | enter
  | backspace
  | delete
  | pageUp
  | pageDown
  | escape
  | left
  | right
  | up
  | down
  | other
  deriving Repr, DecidableEq

/-- `matches!(key.code, KeyCode::Char(_))`. -/
def KeyCode.isChar : KeyCode → Bool
  | .charKey _ => true
  | _ => false

/-- A key event with its CONTROL modifier (the only modifier the render
decision reads). -/
structure KeyEvt where
  code : KeyCode
  ctrl : Bool
  deriving Repr, DecidableEq

/-- The state diff the event loop computes around one keystroke: mode, active
pane, both scroll offsets and the split ratio, before and after
`handle_key_event`.  The split ratio is the f64 value as an exact
rational. -/
structure RenderSnapshot where
  oldMode : EditorMode
  newMode : EditorMode
  oldPane : Pane
  newPane : Pane
  oldReqScroll : Nat
  newReqScroll : Nat
  oldRespScroll : Option Nat
  newRespScroll : Option Nat
  oldSplit : ℚ
  newSplit : ℚ
  deriving Repr, DecidableEq

/-- The three rendering strategies. -/
inductive RenderTier where
  | cursorOnly
  | paneUpdate
  | fullRedraw
  deriving Repr, DecidableEq

/-- The event loop's rendering decision (`event_loop`, lines 954-995):
Tier 3 on any UI-state change or scroll key, else Tier 2 on content-mutating
keys, else Tier 1. -/
def renderTier (s : RenderSnapshot) (k : KeyEvt) : RenderTier :=
  if s.newMode ≠ s.oldMode ∨ s.newPane ≠ s.oldPane ∨
      s.newMode = .command ∨ s.newMode = .visual ∨ s.newMode = .visualLine ∨
      (s.newReqScroll ≠ s.oldReqScroll ∨ s.newRespScroll ≠ s.oldRespScroll) ∨
      s.newSplit ≠ s.oldSplit ∨
      (k.ctrl = true ∧ (k.code = .charKey 'u' ∨ k.code = .charKey 'd' ∨
        k.code = .charKey 'f' ∨ k.code = .charKey 'b' ∨ k.code = .charKey 'g')) ∨
      k.code = .pageUp ∨ k.code = .pageDown then
    .fullRedraw
  else if k.code = .enter ∨ k.code = .delete ∨ k.code = .backspace ∨
      (s.newMode = .insert ∧ k.code.isChar = true ∧ k.ctrl = false) then
    .paneUpdate
  else
    .cursorOnly

/-- The Tier-3 trigger list exactly as claim C5 words it: mode changed, pane
switched, new mode in Command/Visual/VisualLine, a scroll offset changed,
split ratio changed, or the key was Ctrl+U/D/F/B or PageUp/PageDown — WITHOUT
Ctrl+G (comparison definition for the counterexample). -/
def tier3TriggerClaim (s : RenderSnapshot) (k : KeyEvt) : Prop :=
  s.newMode ≠ s.oldMode ∨ s.newPane ≠ s.oldPane ∨
  s.newMode ∈ [EditorMode.command, .visual, .visualLine] ∨
  s.newReqScroll ≠ s.oldReqScroll ∨ s.newRespScroll ≠ s.oldRespScroll ∨
  s.newSplit ≠ s.oldSplit ∨
  (k.ctrl = true ∧
    k.code ∈ [KeyCode.charKey 'u', .charKey 'd', .charKey 'f', .charKey 'b']) ∨
  k.code ∈ [KeyCode.pageUp, .pageDown]

/-- The same trigger list with Ctrl+G added — the amendment the code
forces. -/
def tier3TriggerAmended (s : RenderSnapshot) (k : KeyEvt) : Prop :=
  s.newMode ≠ s.oldMode ∨ s.newPane ≠ s.oldPane ∨
  s.newMode ∈ [EditorMode.command, .visual, .visualLine] ∨
  s.newReqScroll ≠ s.oldReqScroll ∨ s.newRespScroll ≠ s.oldRespScroll ∨
  s.newSplit ≠ s.oldSplit ∨
  (k.ctrl = true ∧
    k.code ∈ [KeyCode.charKey 'u', .charKey 'd', .charKey 'f', .charKey 'b',
      .charKey 'g']) ∨
  k.code ∈ [KeyCode.pageUp, .pageDown]

/-- The Tier-2 trigger as the claim words it: Enter, Backspace/Delete, or a
printable (non-control) character in Insert mode. -/
def tier2Trigger (s : RenderSnapshot) (k : KeyEvt) : Prop :=
  k.code = .enter ∨ k.code ∈ [KeyCode.backspace, .delete] ∨
  (s.newMode = .insert ∧ k.code.isChar = true ∧ k.ctrl = false)

instance (s : RenderSnapshot) (k : KeyEvt) : Decidable (tier3TriggerClaim s k) := by
  unfold tier3TriggerClaim; infer_instance

instance (s : RenderSnapshot) (k : KeyEvt) : Decidable (tier3TriggerAmended s k) := by
  unfold tier3TriggerAmended; infer_instance

instance (s : RenderSnapshot) (k : KeyEvt) : Decidable (tier2Trigger s k) := by
  unfold tier2Trigger; infer_instance

/-- The tier function exactly as claim C5 states it (without Ctrl+G). -/
def specTierClaim (s : RenderSnapshot) (k : KeyEvt) : RenderTier :=
  if tier3TriggerClaim s k then .fullRedraw
  else if tier2Trigger s k then .paneUpdate
  else .cursorOnly

/-- The tier function as the amended claim states it (with Ctrl+G). -/
def specTierAmended (s : RenderSnapshot) (k : KeyEvt) : RenderTier :=
  if tier3TriggerAmended s k then .fullRedraw
  else if tier2Trigger s k then .paneUpdate
  else .cursorOnly

/-- A keystroke snapshot with no state diff at all. -/
def c5NoDiff : RenderSnapshot :=
  ⟨.normal, .normal, .request, .request, 0, 0, none, none, 0, 0⟩

/-- Number of binary digits of `n` (0 for `n = 0`), with recursion fuel. -/
def blenAux : Nat → Nat → Nat
  | 0, _ => 0
  | fuel + 1, n => if n = 0 then 0 else blenAux fuel (n / 2) + 1

/-- Bit length, with fuel for every value reachable here (< 2^256). -/
def blen (n : Nat) : Nat := blenAux 256 n

/-- Round-to-nearest, ties-to-even, of the rational `a / b` (for `b > 0`). -/
def roundNEDiv (a b : Nat) : Nat :=
  let q := a / b
  let r := a % b
  if 2 * r < b then q
  else if b < 2 * r then q + 1
  else if q % 2 = 0 then q else q + 1

/-- A non-negative binary floating-point value `m / 2^k`.  Every `f64` the
pane-split arithmetic produces is of this form; no value is ever negative,
subnormal or anywhere near overflow, so correctly rounded division and
multiplication on these dyadics reproduce the program's doubles exactly. -/
structure F64 where
  m : Nat
  k : Nat
  deriving Repr, DecidableEq

/-- The IEEE-754 double of `n / d`, correctly rounded to 53 significant bits
(round-to-nearest, ties-to-even): scale `n` up, locate the leading bit, and
round at the 53rd. -/
def flDiv (n d : Nat) : F64 :=
  if n = 0 ∨ d = 0 then ⟨0, 0⟩
  else
    let s := blen d + 53
    let q1 := n * 2 ^ s / d
    let shift := blen q1 - 53
    ⟨roundNEDiv (n * 2 ^ s) (d * 2 ^ shift), s - shift⟩

/-- IEEE double multiplication of an exact small natural by an `F64` (the
`total_content_height as f64 * ratio` product): exact product, one
rounding. -/
def flMulNat (t : Nat) (x : F64) : F64 := flDiv (t * x.m) (2 ^ x.k)

/-- Rust `as usize` on a non-negative double: truncation. -/
def floorF64 (x : F64) : Nat := x.m / 2 ^ x.k

/-- Rust `f64::min` on these non-negative values. -/
def minF64 (x y : F64) : F64 := if x.m * 2 ^ y.k ≤ y.m * 2 ^ x.k then x else y

/-- Rust `f64::max` on these non-negative values. -/
def maxF64 (x y : F64) : F64 := if x.m * 2 ^ y.k ≤ y.m * 2 ^ x.k then y else x

/-- `get_request_pane_height`: `(total_content_height as f64 * ratio) as usize`
with `total_content_height = terminal_height - 2`. -/
def requestPaneHeight (h : Nat) (r : F64) : Nat := floorF64 (flMulNat (h - 2) r)

/-- `get_response_pane_height`: the remainder of the content height. -/
def responsePaneHeight (h : Nat) (r : F64) : Nat := (h - 2) - requestPaneHeight h r

/-- `expand_input_pane` (Ctrl+K in the request pane): target one more line,
clamped so the response pane keeps 3 lines; the new ratio is recomputed from
the target line count. -/
def expandInputPane (h : Nat) (r : F64) : F64 :=
  if requestPaneHeight h r < (h - 2) - 3 then
    minF64 (flDiv (min (requestPaneHeight h r + 1) ((h - 2) - 3)) (h - 2))
           (flDiv ((h - 2) - 3) (h - 2))
  else r

/-- `expand_output_pane` (Ctrl+J in the response pane). -/
def expandOutputPane (h : Nat) (r : F64) : F64 :=
  if responsePaneHeight h r < (h - 2) - 3 then
    maxF64 (flDiv ((h - 2) - min (responsePaneHeight h r + 1) ((h - 2) - 3)) (h - 2))
           (flDiv 3 (h - 2))
  else r

/-- `shrink_input_pane` (Ctrl+J in the request pane). -/
def shrinkInputPane (h : Nat) (r : F64) : F64 :=
  if 3 < requestPaneHeight h r then
    maxF64 (flDiv (max (requestPaneHeight h r - 1) 3) (h - 2)) (flDiv 3 (h - 2))
  else r

/-- `shrink_output_pane` (Ctrl+K in the response pane). -/
def shrinkOutputPane (h : Nat) (r : F64) : F64 :=
  if 3 < responsePaneHeight h r then
    minF64 (flDiv ((h - 2) - max (responsePaneHeight h r - 1) 3) (h - 2))
           (flDiv ((h - 2) - 3) (h - 2))
  else r

/-- `maximize_input_pane` (Ctrl+M in the request pane). -/
def maximizeInputPane (h : Nat) (_r : F64) : F64 := flDiv ((h - 2) - 3) (h - 2)

/-- `maximize_output_pane` (Ctrl+M in the response pane). -/
def maximizeOutputPane (h : Nat) (_r : F64) : F64 := flDiv 3 (h - 2)

/-- One pane-resize operation. -/
inductive PaneOp where
  | expandIn
  | expandOut
  | shrinkIn
  | shrinkOut
  | maxIn
  | maxOut
  deriving Repr, DecidableEq

/-- Apply one pane-resize operation to the split ratio. -/
def applyPaneOp (h : Nat) (r : F64) (op : PaneOp) : F64 :=
  match op with
  | .expandIn => expandInputPane h r
  | .expandOut => expandOutputPane h r
  | .shrinkIn => shrinkInputPane h r
  | .shrinkOut => shrinkOutputPane h r
  | .maxIn => maximizeInputPane h r
  | .maxOut => maximizeOutputPane h r

/-- Apply a sequence of pane-resize operations. -/
def applyPaneOps (h : Nat) (ops : List PaneOp) (r : F64) : F64 :=
  ops.foldl (applyPaneOp h) r

/-- The default 50/50 split ratio (`0.5`). -/
def halfSplit : F64 := ⟨1, 1⟩

/-! ### Theorems: buffer editing claims -/

lemma getD_set_self {α : Type _} (l : List α) (n : Nat) (a d : α) (h : n < l.length) :
    (l.set n a).getD n d = a := by
  induction l generalizing n with
  | nil => cases h
  | cons x l ih =>
    cases n with
    | zero => rfl
    | succ n => simpa [List.set] using ih n (by simpa using h)

lemma set_getD_self {α : Type _} (l : List α) (n : Nat) (d : α) (h : n < l.length) :
    l.set n (l.getD n d) = l := by
  induction l generalizing n with
  | nil => cases h
  | cons x l ih =>
    cases n with
    | zero => rfl
    | succ n => simpa [List.set] using ih n (by simpa using h)

lemma insertChar_eq (b : Buffer) (h : CursorInv b) (c : Char) :
    b.insertChar c = some { b with
      lines := b.lines.set b.cursorLine
        ((b.lines.getD b.cursorLine []).take b.cursorCol ++
          c :: (b.lines.getD b.cursorLine []).drop b.cursorCol),
      cursorCol := b.cursorCol + 1 } := by
  obtain ⟨h1, h2⟩ := h
  have hge : ¬ (b.cursorLine ≥ b.lines.length) := by omega
  simp only [Buffer.insertChar]
  rw [if_neg hge, if_pos h1, if_pos h2]

lemma cursorInv_insertChar (b : Buffer) (h : CursorInv b) (c : Char) :
    CursorInv { b with
      lines := b.lines.set b.cursorLine
        ((b.lines.getD b.cursorLine []).take b.cursorCol ++
          c :: (b.lines.getD b.cursorLine []).drop b.cursorCol),
      cursorCol := b.cursorCol + 1 } := by
  obtain ⟨h1, h2⟩ := h
  refine ⟨by simpa using h1, ?_⟩
  simp only
  rw [getD_set_self _ _ _ _ h1]
  rw [List.length_append, List.length_take, List.length_cons, List.length_drop,
    Nat.min_eq_left h2]
  omega

lemma deleteChar_insertChar (b : Buffer) (h : CursorInv b) (c : Char) :
    (b.insertChar c).bind Buffer.deleteChar = some b := by
  obtain ⟨h1, h2⟩ := h
  rw [insertChar_eq b ⟨h1, h2⟩ c]
  show Buffer.deleteChar _ = some b
  simp only [Buffer.deleteChar]
  have hc : b.cursorLine <
      (b.lines.set b.cursorLine
        ((b.lines.getD b.cursorLine []).take b.cursorCol ++
          c :: (b.lines.getD b.cursorLine []).drop b.cursorCol)).length := by
    simpa using h1
  rw [if_pos hc, getD_set_self _ _ _ _ h1]
  have htk : (List.take b.cursorCol (b.lines.getD b.cursorLine [])).length
      = b.cursorCol := by
    rw [List.length_take, Nat.min_eq_left h2]
  have hcond : 0 < b.cursorCol + 1 ∧ b.cursorCol + 1 ≤
      ((b.lines.getD b.cursorLine []).take b.cursorCol ++
        c :: (b.lines.getD b.cursorLine []).drop b.cursorCol).length := by
    constructor
    · omega
    · rw [List.length_append, htk, List.length_cons, List.length_drop]
      omega
  rw [if_pos hcond]
  congr 1
  have e1 : b.cursorCol + 1 - 1 = b.cursorCol := by omega
  rw [e1]
  have gen2 : ∀ (xs ys : List Char) (n : Nat), xs.length = n →
      (xs ++ ys).take n = xs := by
    intro xs ys n hn; subst hn; exact List.take_left _ _
  have gen3 : ∀ (xs ys : List Char) (n : Nat), xs.length = n →
      (xs ++ ys).drop (n + 1) = ys.drop 1 := by
    intro xs ys n hn; subst hn; exact List.drop_append 1
  have e2 : ((b.lines.getD b.cursorLine []).take b.cursorCol ++
        c :: (b.lines.getD b.cursorLine []).drop b.cursorCol).take b.cursorCol
      = (b.lines.getD b.cursorLine []).take b.cursorCol :=
    gen2 _ _ _ htk
  have e3 : ((b.lines.getD b.cursorLine []).take b.cursorCol ++
        c :: (b.lines.getD b.cursorLine []).drop b.cursorCol).drop (b.cursorCol + 1)
      = (b.lines.getD b.cursorLine []).drop b.cursorCol :=
    gen3 _ _ _ htk
  rw [e2, e3, List.set_set, List.take_append_drop, set_getD_self _ _ _ h1]

/-- Main round-trip lemma behind claim C8: inserting a character sequence at
the cursor and then backspacing the same number of times is the identity on
any buffer satisfying the cursor invariant. -/
lemma insert_delete_round_trip (b : Buffer) (cs : List Char) (h : CursorInv b) :
    (insertAll b cs).bind (deleteN cs.length) = some b := by
  induction cs generalizing b with
  | nil => simp [insertAll, deleteN]
  | cons c cs ih =>
    have hb₂ := cursorInv_insertChar b h c
    have hd : Buffer.deleteChar { b with
        lines := b.lines.set b.cursorLine
          ((b.lines.getD b.cursorLine []).take b.cursorCol ++
            c :: (b.lines.getD b.cursorLine []).drop b.cursorCol),
        cursorCol := b.cursorCol + 1 } = some b := by
      have hdc := deleteChar_insertChar b h c
      rwa [insertChar_eq b h c, Option.some_bind] at hdc
    have step : ∀ (x : Option Buffer) (n : Nat),
        x.bind (deleteN (n + 1)) = (x.bind (deleteN n)).bind Buffer.deleteChar := by
      intro x n
      cases x <;> simp [deleteN]
    rw [insertAll, insertChar_eq b h c, Option.some_bind, List.length_cons, step,
      ih _ hb₂, Option.some_bind, hd]

/-- C1: the claimed invariant (`cursor_line < len(lines)`,
`scroll_offset < len(lines)`, no panics) does NOT survive every editing
sequence.  The concrete sequence `c1FailingOps` — grow to five lines, scroll
down three times, delete four lines, then `Ctrl+U` — is reachable from the
initial buffer and ends with `cursor_line = 2` and `scroll_offset = 2` on a
one-line buffer, after which `insert_char` indexes out of bounds (a panic in
the source).  The deletion operations never re-clamp `scroll_offset`, and
`scroll_half_page_up_with_cursor` plants the cursor at the stale offset. -/
theorem c1_buffer_invariant_fails :
    applyEdits c1FailingOps Buffer.new = some c1BrokenState ∧
    c1BrokenState.lines.length ≤ c1BrokenState.cursorLine ∧
    c1BrokenState.lines.length ≤ c1BrokenState.scrollOffset ∧
    c1BrokenState.insertChar 'a' = none := by decide

/-- C3: `scroll_half_page_down` and `scroll_half_page_down_with_cursor` are
NOT total: when `scroll_offset > max_scroll` (reachable by scrolling down with
a small pane and then growing the visible height), the source's unchecked
`max_scroll - self.scroll_offset` underflows — a panic in a debug build —
instead of moving by `min(half_page_size, max(0, max_scroll - scroll_offset))`.
The third conjunct shows a reachable three-step sequence hitting it. -/
theorem c3_scroll_half_page_down_underflow :
    (Buffer.mk [[], []] 0 0 1).scrollHalfPageDown 1 2 = none ∧
    (Buffer.mk [[], []] 1 0 1).scrollHalfPageDownWithCursor 1 2 = none ∧
    applyEdits [.newLn, .scrollDownOne 1, .halfPageDownCursor 1 2] Buffer.new = none := by
  decide

/-- C8: inserting a finite character sequence via `insert_char` and then
applying `delete_char` (backspace) the same number of times restores the
original buffer — lines, cursor line, cursor column (and scroll) — for every
buffer satisfying the cursor-bounds invariant. -/
theorem c8_insert_then_delete_restores (b : Buffer) (cs : List Char)
    (h : CursorInv b) :
    (insertAll b cs).bind (deleteN cs.length) = some b :=
  insert_delete_round_trip b cs h

/-- Witness for C8 at a concrete buffer and character sequence. -/
theorem c8_insert_then_delete_restores_witness :
    CursorInv ⟨[['a', 'b']], 0, 1, 0⟩ ∧
    (insertAll ⟨[['a', 'b']], 0, 1, 0⟩ ['x', 'y']).bind (deleteN 2)
      = some ⟨[['a', 'b']], 0, 1, 0⟩ :=
  ⟨by decide, c8_insert_then_delete_restores ⟨[['a', 'b']], 0, 1, 0⟩ ['x', 'y'] (by decide)⟩

/-! ### Theorems: visual selection -/

lemma normSel_swap_of_ne (s : VisualSelection) (h : s.startLine ≠ s.endLine) :
    normSel s.swap = normSel s := by
  unfold normSel VisualSelection.swap
  simp only
  rw [min_comm s.endLine, max_comm s.endLine]
  rcases Nat.lt_or_ge s.startLine s.endLine with hlt | hge
  · rw [if_neg (by omega), if_neg (by omega), if_pos (by omega), if_pos (by omega)]
  · have hgt : s.endLine < s.startLine := by omega
    rw [if_pos (by omega), if_pos (by omega), if_neg (by omega), if_neg (by omega)]

lemma normSel_of_line (s : VisualSelection) (h : s.startLine = s.endLine) :
    normSel s = (s.startLine, s.startLine, s.startCol, s.endCol) := by
  unfold normSel
  rw [← h]
  simp

lemma normSel_swap_of_line (s : VisualSelection) (h : s.startLine = s.endLine) :
    normSel s.swap = (s.startLine, s.startLine, s.endCol, s.startCol) := by
  unfold normSel VisualSelection.swap
  rw [← h]
  simp

/-- C6: `get_selected_text` is symmetric under exchanging the captured
selection endpoints: capturing start=A, end=B and start=B, end=A yield the
same yanked text, in both the single-line and the multi-line branch (and the
two agree even on the panicking out-of-range slices). -/
theorem c6_selected_text_swap_invariant (pane : Pane) (bufLines : List (List Char))
    (respBuf : Option ResponseBuffer) (sel : VisualSelection) :
    getSelectedText pane bufLines respBuf sel.swap
      = getSelectedText pane bufLines respBuf sel := by
  by_cases h : sel.startLine = sel.endLine
  · rw [getSelectedText.eq_def, getSelectedText.eq_def, normSel_of_line sel h,
      normSel_swap_of_line sel h]
    simp only
    cases hp : (match pane, respBuf with
      | Pane.request, _ => some bufLines
      | Pane.response, some r => some r.lines
      | Pane.response, none => (none : Option (List (List Char)))) with
    | none => rfl
    | some lines =>
      simp only [if_pos rfl]
      cases lines.get? sel.startLine with
      | none => rfl
      | some line =>
        rw [min_comm sel.endCol, max_comm sel.endCol]
        simp
  · rw [getSelectedText.eq_def, getSelectedText.eq_def, normSel_swap_of_ne sel h]


/-! ### Theorems: command execution and response yank -/
lemma find?_append_single (k' k v : List Char) (m : List (List Char × List Char))
    (h : k ≠ k') :
    (m ++ [(k, v)]).find? (fun p => p.1 = k') = m.find? (fun p => p.1 = k') := by
  induction m with
  | nil =>
    rw [List.nil_append, List.find?_cons_of_neg _ (by simp [h])]
  | cons p m ih =>
    rw [List.cons_append]
    by_cases hp' : p.1 = k'
    · rw [List.find?_cons_of_pos _ (by simp [hp']),
        List.find?_cons_of_pos _ (by simp [hp'])]
    · rw [List.find?_cons_of_neg _ (by simp [hp']),
        List.find?_cons_of_neg _ (by simp [hp'])]
      exact ih

lemma find?_mapInsert_self (k v : List Char) (m : List (List Char × List Char)) :
    (mapInsert k v m).find? (fun p => p.1 = k) = some (k, v) := by
  unfold mapInsert
  by_cases hs : (m.find? (fun p => p.1 = k)).isSome
  · rw [if_pos hs]
    induction m with
    | nil => simp at hs
    | cons p m ih =>
      rw [List.map_cons]
      by_cases hp : p.1 = k
      · rw [if_pos hp, List.find?_cons_of_pos _ (by simp)]
      · rw [List.find?_cons_of_neg _ (by simp [hp])] at hs
        rw [if_neg hp, List.find?_cons_of_neg _ (by simp [hp])]
        exact ih hs
  · rw [if_neg hs]
    induction m with
    | nil =>
      rw [List.nil_append, List.find?_cons_of_pos _ (by simp)]
    | cons p m ih =>
      by_cases hp : p.1 = k
      · rw [List.find?_cons_of_pos _ (by simp [hp])] at hs
        simp at hs
      · rw [List.find?_cons_of_neg _ (by simp [hp])] at hs
        rw [List.cons_append, List.find?_cons_of_neg _ (by simp [hp])]
        exact ih hs

lemma find?_mapInsert_ne (k' k v : List Char) (m : List (List Char × List Char))
    (h : k' ≠ k) :
    (mapInsert k v m).find? (fun p => p.1 = k') = m.find? (fun p => p.1 = k') := by
  have hkk : ¬ ((k, v).1 = k') := fun hk => h hk.symm
  unfold mapInsert
  by_cases hs : (m.find? (fun p => p.1 = k)).isSome
  · rw [if_pos hs]
    clear hs
    induction m with
    | nil => rfl
    | cons p m ih =>
      rw [List.map_cons]
      by_cases hp : p.1 = k
      · have hp' : ¬ p.1 = k' := by rw [hp]; exact fun hk => h hk.symm
        rw [if_pos hp, List.find?_cons_of_neg _ (by simpa using hkk),
          List.find?_cons_of_neg _ (by simp [hp'])]
        exact ih
      · rw [if_neg hp]
        by_cases hp' : p.1 = k'
        · rw [List.find?_cons_of_pos _ (by simp [hp']),
            List.find?_cons_of_pos _ (by simp [hp'])]
        · rw [List.find?_cons_of_neg _ (by simp [hp']),
            List.find?_cons_of_neg _ (by simp [hp'])]
          exact ih
  · rw [if_neg hs]
    exact find?_append_single k' k v m (fun hk => h hk.symm)

lemma find?_mapRemove_self (k : List Char) (m : List (List Char × List Char)) :
    (mapRemove k m).find? (fun p => p.1 = k) = none := by
  unfold mapRemove
  induction m with
  | nil => rfl
  | cons p m ih =>
    by_cases hp : p.1 = k
    · rw [List.filter_cons_of_neg (by simp [hp])]
      exact ih
    · rw [List.filter_cons_of_pos (by simp [hp]),
        List.find?_cons_of_neg _ (by simp [hp])]
      exact ih

lemma find?_mapRemove_ne (k' k : List Char) (m : List (List Char × List Char))
    (h : k' ≠ k) :
    (mapRemove k m).find? (fun p => p.1 = k') = m.find? (fun p => p.1 = k') := by
  unfold mapRemove
  induction m with
  | nil => rfl
  | cons p m ih =>
    by_cases hp : p.1 = k
    · have hp' : ¬ p.1 = k' := by rw [hp]; exact fun hk => h hk.symm
      rw [List.filter_cons_of_neg (by simp [hp]),
        List.find?_cons_of_neg _ (by simp [hp'])]
      exact ih
    · rw [List.filter_cons_of_pos (by simp [hp])]
      by_cases hp' : p.1 = k'
      · rw [List.find?_cons_of_pos _ (by simp [hp']),
          List.find?_cons_of_pos _ (by simp [hp'])]
      · rw [List.find?_cons_of_neg _ (by simp [hp']),
          List.find?_cons_of_neg _ (by simp [hp'])]
        exact ih

/-- C9 (amended): session-header keys are case-sensitive, not
case-insensitive: `:head`/`:unhead` with any key distinct from `k₁` — in
particular one differing only in letter case — leave the `k₁` header intact,
and each command affects exactly the byte-identical key. -/
theorem c9_headers_case_sensitive (m : List (List Char × List Char)) (k₁ v₁ k₂ v₂ : List Char)
    (h : k₁ ≠ k₂) :
    mapLookup k₁ (mapInsert k₂ v₂ (mapInsert k₁ v₁ m)) = some v₁ ∧
    mapLookup k₂ (mapInsert k₂ v₂ (mapInsert k₁ v₁ m)) = some v₂ ∧
    mapLookup k₁ (mapRemove k₂ (mapInsert k₁ v₁ m)) = some v₁ ∧
    mapLookup k₂ (mapRemove k₂ (mapInsert k₂ v₂ m)) = none := by
  unfold mapLookup
  rw [find?_mapInsert_ne k₁ k₂ v₂ _ h, find?_mapInsert_self,
      find?_mapInsert_self, find?_mapRemove_ne k₁ k₂ _ h, find?_mapInsert_self,
      find?_mapRemove_self]
  exact ⟨rfl, rfl, rfl, rfl⟩

/-- Counterexample to C9 as stated: `:head Foo 1` followed by `:head foo 2`
leaves TWO session headers whose keys agree case-insensitively — the second
command does not overwrite the first, and the headers mapping attached to a
dispatched ReplCommand (`session_headers.clone()`) holds both entries. -/
theorem c9_headers_counterexample :
    (executeCommand ((executeCommand c9Start (strL "head Foo 1")).1)
        (strL "head foo 2")).1.sessionHeaders
      = [(strL "Foo", strL "1"), (strL "foo", strL "2")] ∧
    (strL "Foo").map Char.toLower = (strL "foo").map Char.toLower ∧
    strL "Foo" ≠ strL "foo" := by decide

/-- Counterexample to C2 as stated: with a response pane open but the Request
pane active, `:q` terminates the session (`quit`) instead of closing the
response pane — the source keys the decision on `current_pane`, not on
whether a response pane is open. -/
theorem c2_quit_counterexample :
    executeCommand c2State (strL "q") = (c2State, .quit) ∧
    c2State.responseBuffer ≠ none ∧ c2State.currentPane = .request := by decide

/-- C2 (amended): `q`/`quit` closes the response pane (returning to a
full-height request pane, ratio 1.0, request pane active) exactly when the
RESPONSE pane is the active pane; otherwise it terminates the session, even
when a response pane is open. -/
theorem c2_quit_amended (st : Session) (cmd : List Char)
    (hc : cmd = strL "q" ∨ cmd = strL "quit") :
    executeCommand st cmd =
      (if st.currentPane = .response then
        ({ st with responseBuffer := none, currentPane := .request,
                   paneSplit := 1 }, .keepGoing)
      else (st, .quit)) := by
  rcases hc with h | h <;> subst h
  · rw [executeCommand, if_pos (Or.inl rfl)]
  · rw [executeCommand, if_pos (Or.inr rfl)]
/-- Counterexample to C10's universal "these differ" clause: in a response
buffer whose lines at `scroll_offset` and `cursor_line` have equal content,
the yanked text equals the cursor line's text even though
`cursor_line ≠ scroll_offset`. -/
theorem c10_yank_counterexample :
    yankResponseLine c10Resp [] = strL "a" ∧
    yankResponseLine c10Resp [] = c10Resp.lines.getD c10Resp.cursorLine [] ∧
    c10Resp.cursorLine ≠ c10Resp.scrollOffset := by decide

/-- C10 (amended): `y` in Normal mode on the Response pane copies the line at
index `scroll_offset` (the top visible line), and whenever the line contents
at `scroll_offset` and `cursor_line` differ, the copied text differs from the
line at the cursor. -/
theorem c10_yank_amended (resp : ResponseBuffer) (clip : List Char)
    (h1 : resp.scrollOffset < resp.lines.length)
    (h2 : resp.lines.getD resp.scrollOffset [] ≠ resp.lines.getD resp.cursorLine []) :
    yankResponseLine resp clip = resp.lines.getD resp.scrollOffset [] ∧
    yankResponseLine resp clip ≠ resp.lines.getD resp.cursorLine [] := by
  have hx : resp.lines.get? resp.scrollOffset
      = some (resp.lines.getD resp.scrollOffset []) := by
    rw [List.getD_eq_getElem?_getD, List.get?_eq_getElem?, List.getElem?_eq_getElem h1]
    rfl
  unfold yankResponseLine
  rw [hx]
  exact ⟨rfl, h2⟩

/-- Witness for C2's amended theorem at a concrete session and command. -/
theorem c2_quit_amended_witness :
    (strL "q" = strL "q" ∨ strL "q" = strL "quit") ∧
    executeCommand c2State (strL "q") =
      (if c2State.currentPane = .response then
        ({ c2State with responseBuffer := none, currentPane := .request,
                        paneSplit := 1 }, .keepGoing)
      else (c2State, .quit)) :=
  ⟨Or.inl rfl, c2_quit_amended c2State (strL "q") (Or.inl rfl)⟩

/-- Witness for C9's amended theorem at two keys differing only in case. -/
theorem c9_headers_case_sensitive_witness :
    strL "Foo" ≠ strL "foo" ∧
    (mapLookup (strL "Foo")
        (mapInsert (strL "foo") (strL "2")
          (mapInsert (strL "Foo") (strL "1") [])) = some (strL "1") ∧
     mapLookup (strL "foo")
        (mapInsert (strL "foo") (strL "2")
          (mapInsert (strL "Foo") (strL "1") [])) = some (strL "2") ∧
     mapLookup (strL "Foo")
        (mapRemove (strL "foo")
          (mapInsert (strL "Foo") (strL "1") [])) = some (strL "1") ∧
     mapLookup (strL "foo")
        (mapRemove (strL "foo")
          (mapInsert (strL "foo") (strL "2") [])) = none) :=
  ⟨by decide, c9_headers_case_sensitive [] (strL "Foo") (strL "1") (strL "foo")
    (strL "2") (by decide)⟩

/-- Witness for C10's amended theorem at a concrete response buffer. -/
theorem c10_yank_amended_witness :
    (c10RespW.scrollOffset < c10RespW.lines.length ∧
     c10RespW.lines.getD c10RespW.scrollOffset []
       ≠ c10RespW.lines.getD c10RespW.cursorLine []) ∧
    (yankResponseLine c10RespW [] = c10RespW.lines.getD c10RespW.scrollOffset [] ∧
     yankResponseLine c10RespW [] ≠ c10RespW.lines.getD c10RespW.cursorLine []) :=
  ⟨⟨by decide, by decide⟩, c10_yank_amended c10RespW [] (by decide) (by decide)⟩

/-! ### Theorems: request parsing -/

lemma splitWhitespaceAux_ne_nil (l : List Char) (cur : List Char) (h : cur ≠ []) :
    splitWhitespaceAux l cur ≠ [] := by
  induction l generalizing cur with
  | nil => simp [splitWhitespaceAux, h]
  | cons c cs ih =>
    rw [splitWhitespaceAux]
    by_cases hw : rustIsWhitespace c = true
    · rw [if_pos hw, if_neg h]
      exact List.cons_ne_nil _ _
    · rw [if_neg hw]
      exact ih _ (List.cons_ne_nil c cur)

lemma splitWhitespace_eq_nil_iff (l : List Char) :
    splitWhitespace l = [] ↔ l.all rustIsWhitespace = true := by
  unfold splitWhitespace
  induction l with
  | nil => simp [splitWhitespaceAux]
  | cons c cs ih =>
    rw [splitWhitespaceAux]
    by_cases hw : rustIsWhitespace c = true
    · rw [if_pos hw, if_pos rfl, List.all_cons, hw, Bool.true_and]
      exact ih
    · rw [if_neg hw]
      constructor
      · intro hcontra
        exact absurd hcontra (splitWhitespaceAux_ne_nil _ _ (List.cons_ne_nil _ _))
      · intro hall
        exfalso
        rw [List.all_cons, Bool.and_eq_true] at hall
        exact hw hall.1

lemma all_dropWhile_iff (l : List Char) :
    (l.dropWhile rustIsWhitespace).all rustIsWhitespace = true
      ↔ l.all rustIsWhitespace = true := by
  conv_rhs => rw [← List.takeWhile_append_dropWhile (p := rustIsWhitespace) (l := l)]
  rw [List.all_append, Bool.and_eq_true]
  constructor
  · intro h
    refine ⟨?_, h⟩
    rw [List.all_eq_true]
    intro x hx
    exact List.mem_takeWhile_imp hx
  · intro h
    exact h.2

lemma trimList_eq_nil_iff (l : List Char) :
    trimList l = [] ↔ l.all rustIsWhitespace = true := by
  unfold trimList
  rw [List.reverse_eq_nil_iff, List.dropWhile_eq_nil_iff]
  constructor
  · intro h
    rw [← all_dropWhile_iff, List.all_eq_true]
    intro x hx
    exact h x (by simpa using hx)
  · intro h x hx
    rw [← all_dropWhile_iff, List.all_eq_true] at h
    exact h x (by simpa using hx)

/-- C4 (amended): `:x` dispatches a request iff the first buffer line carries
AT LEAST two whitespace-separated tokens (not exactly two — extra tokens are
ignored); the method is the uppercased first token and the URL string the
second; a blank line directly after the first is skipped and the remaining
lines joined with a newline form the body (absent if none); with fewer than
two tokens only a status message is set.  Proved as a refinement: the
source's parse phase equals the claim-worded `requestParseSpec` on every
buffer. -/
theorem c4_request_parse_amended (bufLines : List (List Char)) :
    executeRequestParse bufLines = requestParseSpec bufLines := by
  unfold executeRequestParse requestParseSpec
  by_cases hempty : rustLinesOf (joinNL bufLines) = [] ∨
      trimList ((rustLinesOf (joinNL bufLines)).headD []) = []
  · have hparts : splitWhitespace ((rustLinesOf (joinNL bufLines)).headD []) = [] := by
      rcases hempty with he | ht
      · rw [he]
        rfl
      · rw [splitWhitespace_eq_nil_iff]
        rw [trimList_eq_nil_iff] at ht
        exact ht
    rw [if_pos hempty, hparts]
    rw [if_neg (by simp), if_pos hempty]
  · rw [if_neg hempty]
    by_cases hlen : (splitWhitespace ((rustLinesOf (joinNL bufLines)).headD [])).length < 2
    · have hno : ¬ (2 ≤ (splitWhitespace ((rustLinesOf (joinNL bufLines)).headD [])).length) := by
        omega
      rw [if_pos hlen, if_neg hno, if_neg hempty]
    · have hyes : 2 ≤ (splitWhitespace ((rustLinesOf (joinNL bufLines)).headD [])).length := by
        omega
      rw [if_neg hlen, if_pos hyes]
      congr 1
      by_cases hblank : 1 < (rustLinesOf (joinNL bufLines)).length ∧
          trimList ((rustLinesOf (joinNL bufLines)).getD 1 []) = []
      · rw [if_pos hblank, if_pos hblank]
        by_cases h2 : 2 < (rustLinesOf (joinNL bufLines)).length
        · have hnn : ¬ ((rustLinesOf (joinNL bufLines)).drop 2 = []) := by
            rw [List.drop_eq_nil_iff]
            omega
          rw [if_pos h2, if_neg hnn]
        · have hnil : (rustLinesOf (joinNL bufLines)).drop 2 = [] := by
            rw [List.drop_eq_nil_iff]
            omega
          rw [if_neg h2, if_pos hnil]
      · rw [if_neg hblank, if_neg hblank]
        by_cases h1 : 1 < (rustLinesOf (joinNL bufLines)).length
        · have hnn : ¬ ((rustLinesOf (joinNL bufLines)).drop 1 = []) := by
            rw [List.drop_eq_nil_iff]
            omega
          rw [if_pos h1, if_neg hnn]
        · have hnil : (rustLinesOf (joinNL bufLines)).drop 1 = [] := by
            rw [List.drop_eq_nil_iff]
            omega
          rw [if_neg h1, if_pos hnil]

/-- Counterexample to C4 as stated: a first line with THREE tokens
(`get http://x y`) still dispatches — tokenizing to exactly `METHOD URL` is
not required, the third token is silently ignored. -/
theorem c4_three_token_counterexample :
    executeRequestParse [strL "get http://x y"]
      = .dispatch (strL "GET") (strL "http://x") none ∧
    (splitWhitespace (strL "get http://x y")).length = 3 := by decide

/-! ### Theorems: render-tier classification -/

/-- Counterexample to C5 as stated: Ctrl+G is outside the claim's Tier-3 key
list and produces no state diff here, yet the code's decision (whose match
also covers `Char('g')` under CONTROL) performs a full redraw where the
claim's classification says cursor-only. -/
theorem c5_ctrl_g_counterexample :
    renderTier c5NoDiff ⟨.charKey 'g', true⟩ = .fullRedraw ∧
    specTierClaim c5NoDiff ⟨.charKey 'g', true⟩ = .cursorOnly := by decide

/-- C5 (amended): the render tier is exactly the claim's classification once
Ctrl+G is added to the Tier-3 scroll-key list: Tier 3 iff mode changed, pane
switched, new mode is Command/Visual/VisualLine, a scroll offset changed, the
split ratio changed, or the key was Ctrl+U/D/F/B/G or PageUp/PageDown;
otherwise Tier 2 iff Enter, Backspace/Delete, or a printable character in
Insert mode; otherwise Tier 1. -/
theorem c5_render_tier_amended (s : RenderSnapshot) (k : KeyEvt) :
    renderTier s k = specTierAmended s k := by
  unfold renderTier specTierAmended
  refine if_congr ?_ rfl (if_congr ?_ rfl rfl)
  · unfold tier3TriggerAmended
    simp only [List.mem_cons, List.not_mem_nil, or_false]
    tauto
  · unfold tier2Trigger
    simp only [List.mem_cons, List.not_mem_nil, or_false]
    tauto

/-! ### Theorems: pane-split floating-point layout -/

lemma minF64_cases (x y : F64) : minF64 x y = x ∨ minF64 x y = y := by
  unfold minF64
  split
  · exact Or.inl rfl
  · exact Or.inr rfl

lemma maxF64_cases (x y : F64) : maxF64 x y = x ∨ maxF64 x y = y := by
  unfold maxF64
  split
  · exact Or.inr rfl
  · exact Or.inl rfl

lemma paneOp_bounds (h : Nat) (hh : 8 ≤ h)
    (hbound : ∀ n, n < h - 2 → 3 ≤ n → n ≤ h - 2 - 3 →
      3 ≤ requestPaneHeight h (flDiv n (h - 2)) ∧
      requestPaneHeight h (flDiv n (h - 2)) ≤ h - 2 - 3)
    (hmin : requestPaneHeight h (flDiv 3 (h - 2)) = 3)
    (hmax : requestPaneHeight h (flDiv (h - 2 - 3) (h - 2)) = h - 2 - 3)
    (r : F64)
    (hr : 3 ≤ requestPaneHeight h r ∧ requestPaneHeight h r ≤ h - 2 - 3)
    (op : PaneOp) :
    3 ≤ requestPaneHeight h (applyPaneOp h r op) ∧
    requestPaneHeight h (applyPaneOp h r op) ≤ h - 2 - 3 := by
  obtain ⟨hr1, hr2⟩ := hr
  have ht : 6 ≤ h - 2 := by omega
  cases op with
  | expandIn =>
    simp only [applyPaneOp]
    unfold expandInputPane
    by_cases hc : requestPaneHeight h r < (h - 2) - 3
    · rw [if_pos hc]
      rcases minF64_cases (flDiv (min (requestPaneHeight h r + 1) ((h - 2) - 3)) (h - 2))
        (flDiv ((h - 2) - 3) (h - 2)) with hm | hm <;> rw [hm]
      · exact hbound (min (requestPaneHeight h r + 1) ((h - 2) - 3))
          (by omega) (by omega) (by omega)
      · exact hbound ((h - 2) - 3) (by omega) (by omega) (by omega)
    · rw [if_neg hc]
      exact ⟨hr1, hr2⟩
  | expandOut =>
    simp only [applyPaneOp]
    unfold expandOutputPane responsePaneHeight
    by_cases hc : (h - 2) - requestPaneHeight h r < (h - 2) - 3
    · rw [if_pos hc]
      rcases maxF64_cases
        (flDiv ((h - 2) - min ((h - 2) - requestPaneHeight h r + 1) ((h - 2) - 3)) (h - 2))
        (flDiv 3 (h - 2)) with hm | hm <;> rw [hm]
      · exact hbound ((h - 2) - min ((h - 2) - requestPaneHeight h r + 1) ((h - 2) - 3))
          (by omega) (by omega) (by omega)
      · exact hbound 3 (by omega) (by omega) (by omega)
    · rw [if_neg hc]
      exact ⟨hr1, hr2⟩
  | shrinkIn =>
    simp only [applyPaneOp]
    unfold shrinkInputPane
    by_cases hc : 3 < requestPaneHeight h r
    · rw [if_pos hc]
      rcases maxF64_cases (flDiv (max (requestPaneHeight h r - 1) 3) (h - 2))
        (flDiv 3 (h - 2)) with hm | hm <;> rw [hm]
      · exact hbound (max (requestPaneHeight h r - 1) 3) (by omega) (by omega) (by omega)
      · exact hbound 3 (by omega) (by omega) (by omega)
    · rw [if_neg hc]
      exact ⟨hr1, hr2⟩
  | shrinkOut =>
    simp only [applyPaneOp]
    unfold shrinkOutputPane responsePaneHeight
    by_cases hc : 3 < (h - 2) - requestPaneHeight h r
    · rw [if_pos hc]
      rcases minF64_cases
        (flDiv ((h - 2) - max ((h - 2) - requestPaneHeight h r - 1) 3) (h - 2))
        (flDiv ((h - 2) - 3) (h - 2)) with hm | hm <;> rw [hm]
      · exact hbound ((h - 2) - max ((h - 2) - requestPaneHeight h r - 1) 3)
          (by omega) (by omega) (by omega)
      · exact hbound ((h - 2) - 3) (by omega) (by omega) (by omega)
    · rw [if_neg hc]
      exact ⟨hr1, hr2⟩
  | maxIn =>
    simp only [applyPaneOp]
    unfold maximizeInputPane
    rw [hmax]
    omega
  | maxOut =>
    simp only [applyPaneOp]
    unfold maximizeOutputPane
    rw [hmin]
    omega

/-- C7 (amended): at every terminal height `h ≥ 8` whose content height
`t = h - 2` keeps the f64 ratio round-trip `trunc(t * fl(n/t))` within
`[3, t-3]` for every target pane height `n` in that range and exact at the
two clamp boundaries `n = 3` and `n = t-3` (true e.g. at height 24, false at
height 49), every sequence of expand/shrink/maximize operations keeps both
panes' computed heights within `[3, t-3]`, and maximize makes the maximized
pane exactly `t - 3`. -/
theorem c7_pane_bounds_amended (h : Nat) (hh : 8 ≤ h)
    (hbound : ∀ n, n < h - 2 → 3 ≤ n → n ≤ h - 2 - 3 →
      3 ≤ requestPaneHeight h (flDiv n (h - 2)) ∧
      requestPaneHeight h (flDiv n (h - 2)) ≤ h - 2 - 3)
    (hmin : requestPaneHeight h (flDiv 3 (h - 2)) = 3)
    (hmax : requestPaneHeight h (flDiv (h - 2 - 3) (h - 2)) = h - 2 - 3)
    (r₀ : F64)
    (hr₀ : 3 ≤ requestPaneHeight h r₀ ∧ requestPaneHeight h r₀ ≤ h - 2 - 3)
    (ops : List PaneOp) :
    (3 ≤ requestPaneHeight h (applyPaneOps h ops r₀) ∧
     requestPaneHeight h (applyPaneOps h ops r₀) ≤ h - 2 - 3 ∧
     3 ≤ responsePaneHeight h (applyPaneOps h ops r₀) ∧
     responsePaneHeight h (applyPaneOps h ops r₀) ≤ h - 2 - 3) ∧
    requestPaneHeight h (maximizeInputPane h r₀) = h - 2 - 3 ∧
    responsePaneHeight h (maximizeOutputPane h r₀) = h - 2 - 3 := by
  have hfold : 3 ≤ requestPaneHeight h (applyPaneOps h ops r₀) ∧
      requestPaneHeight h (applyPaneOps h ops r₀) ≤ h - 2 - 3 := by
    unfold applyPaneOps
    induction ops generalizing r₀ with
    | nil => exact hr₀
    | cons op ops ih =>
      rw [List.foldl_cons]
      exact ih _ (paneOp_bounds h hh hbound hmin hmax r₀ hr₀ op)
  obtain ⟨hf1, hf2⟩ := hfold
  refine ⟨⟨hf1, hf2, ?_, ?_⟩, ?_, ?_⟩
  · unfold responsePaneHeight
    omega
  · unfold responsePaneHeight
    omega
  · unfold maximizeInputPane
    exact hmax
  · unfold responsePaneHeight maximizeOutputPane
    rw [hmin]

set_option maxRecDepth 100000 in
/-- Counterexample to C7 as stated: at terminal height 49 (content height
47), eighteen shrink-input steps from the default 0.5 split drive the request
pane to 2 lines — below the claimed minimum of 3 — because
`47 * (3/47 : f64) = 2.9999999999999996` truncates to 2; and
`maximize_output_pane` leaves the maximized response pane at 45 lines, not
the claimed `total_content_height - 3 = 44`. -/
theorem c7_min_pane_counterexample :
    requestPaneHeight 49 (applyPaneOps 49 (List.replicate 18 .shrinkIn) halfSplit) = 2 ∧
    requestPaneHeight 49 (maximizeOutputPane 49 halfSplit) = 2 ∧
    responsePaneHeight 49 (maximizeOutputPane 49 halfSplit) = 45 ∧
    (49 : Nat) - 2 - 3 = 44 := by decide

set_option maxRecDepth 100000 in
/-- Witness for C7's amended theorem at terminal height 24, the default 0.5
split, and a six-operation resize sequence. -/
theorem c7_pane_bounds_amended_witness :
    ((8 : Nat) ≤ 24 ∧
     (∀ n, n < 24 - 2 → 3 ≤ n → n ≤ 24 - 2 - 3 →
       3 ≤ requestPaneHeight 24 (flDiv n (24 - 2)) ∧
       requestPaneHeight 24 (flDiv n (24 - 2)) ≤ 24 - 2 - 3) ∧
     requestPaneHeight 24 (flDiv 3 (24 - 2)) = 3 ∧
     requestPaneHeight 24 (flDiv (24 - 2 - 3) (24 - 2)) = 24 - 2 - 3 ∧
     (3 ≤ requestPaneHeight 24 halfSplit ∧
      requestPaneHeight 24 halfSplit ≤ 24 - 2 - 3)) ∧
    ((3 ≤ requestPaneHeight 24
        (applyPaneOps 24 [.shrinkIn, .shrinkIn, .expandOut, .maxIn, .maxOut, .expandIn] halfSplit) ∧
      requestPaneHeight 24
        (applyPaneOps 24 [.shrinkIn, .shrinkIn, .expandOut, .maxIn, .maxOut, .expandIn] halfSplit) ≤ 24 - 2 - 3 ∧
      3 ≤ responsePaneHeight 24
        (applyPaneOps 24 [.shrinkIn, .shrinkIn, .expandOut, .maxIn, .maxOut, .expandIn] halfSplit) ∧
      responsePaneHeight 24
        (applyPaneOps 24 [.shrinkIn, .shrinkIn, .expandOut, .maxIn, .maxOut, .expandIn] halfSplit) ≤ 24 - 2 - 3) ∧
     requestPaneHeight 24 (maximizeInputPane 24 halfSplit) = 24 - 2 - 3 ∧
     responsePaneHeight 24 (maximizeOutputPane 24 halfSplit) = 24 - 2 - 3) :=
  ⟨⟨by decide, by decide, by decide, by decide, by decide⟩,
   c7_pane_bounds_amended 24 (by decide) (by decide) (by decide) (by decide) halfSplit
     (by decide) [.shrinkIn, .shrinkIn, .expandOut, .maxIn, .maxOut, .expandIn]⟩

end Httpc
